import Mathlib

/-!
A shallow embedding of the retrieval core of the PDF_Reasoner backend:
`backend1/app/vector_store.py` (class `VectorStore`) and
`backend1/app/rag_pipeline.py` (class `RAGPipeline`).

Modelling choices:
- float distances are modelled as rationals (no arithmetic is performed on
  them by the embedded code, only comparisons and the constant `0.0`);
- the FAISS index is modelled by its vector count `ntotal` together with an
  abstract oracle `indexSearch : Nat → List (Int × ℚ)` standing for
  `self.index.search(query_vector, n)`, which returns `(index, distance)`
  candidate pairs (FAISS uses `-1` as the "no match" sentinel position);
- Python `str.lower` is modelled on the ASCII range, which covers every
  keyword the code compares against; `needle in hay` is contiguous-substring
  membership on the character lists;
- the two on-disk artifacts (`index_path`, `texts_path`) are modelled by two
  booleans recording whether each file exists.
-/

/-- ASCII lowering of one character (model of Python `str.lower` per char). -/
def lowerChar (c : Char) : Char :=
  if 65 ≤ c.toNat ∧ c.toNat ≤ 90 then Char.ofNat (c.toNat + 32) else c

/-- Model of Python `s.lower()` (ASCII range). -/
def lowerStr (s : String) : String := ⟨s.data.map lowerChar⟩

/-- `startsWith needle hay`: `needle` is an initial segment of `hay`. -/
def startsWith : List Char → List Char → Bool
  | [], _ => true
  | _ :: _, [] => false
  | a :: as, b :: bs => a == b && startsWith as bs

/-- `containsSeq needle hay`: `needle` occurs contiguously inside `hay`
(model of Python `needle in hay` on strings). -/
def containsSeq (needle : List Char) : List Char → Bool
  | [] => startsWith needle []
  | hay@(_ :: rest) => startsWith needle hay || containsSeq needle rest

/-- Python `needle in hay` for strings. -/
def strIn (needle hay : String) : Bool := containsSeq needle.data hay.data

/-- A `(text, page_number, pdf_name)` metadata triple, the element type of the
`texts` argument of `VectorStore.add_vectors`. -/
abbrev Chunk := String × Int × String

/-- One search result `(text, distance, page, pdf_name)` as produced by
`VectorStore.search` and consumed by the RAG pipeline. -/
structure SearchResult where
  text : String
  distance : ℚ
  page : Int
  pdfName : String
deriving Repr, DecidableEq

/-- The state of `vector_store.VectorStore`: the FAISS index (vector count
`ntotal`), the three parallel metadata arrays and the two on-disk artifacts. -/
structure VectorStore where
  dimension : Nat
  ntotal : Nat
  texts : List String
  page_numbers : List Int
  pdf_names : List String
  indexFileExists : Bool
  textsFileExists : Bool
deriving Repr, DecidableEq

/-- A fresh store, as built by `VectorStore.__init__` when no persisted
artifact exists (default dimension 384). -/
def emptyStore : VectorStore :=
  { dimension := 384, ntotal := 0, texts := [], page_numbers := [],
    pdf_names := [], indexFileExists := false, textsFileExists := false }

/-- `VectorStore._save_index`: writes both artifacts to disk (success path;
a failed write is logged and leaves the in-memory state untouched either way). -/
def VectorStore.save_index (s : VectorStore) : VectorStore :=
  { s with indexFileExists := true, textsFileExists := true }

/-- Outcome of a call to `VectorStore.add_vectors`: normal completion, the
logged-and-`return` early exits, or the uncaught `IndexError` that `texts[0]`
raises on an empty metadata list.  Each constructor carries the state of the
store when control leaves the method. -/
inductive AddOutcome where
  | ok (s : VectorStore)
  | loggedError (s : VectorStore)
  | indexError (s : VectorStore)
deriving Repr, DecidableEq

/-- The store state an `AddOutcome` leaves behind. -/
def AddOutcome.state : AddOutcome → VectorStore
  | .ok s => s
  | .loggedError s => s
  | .indexError s => s

/-- `VectorStore.add_vectors(vectors, texts)` (vector_store.py lines 39-55).
`vectors.shape[0] == 0` short-circuits with a logged error; with a non-empty
vector batch, `texts[0]` raises `IndexError` when `texts` is empty (the
`isinstance(texts[0], tuple) or len(texts[0]) != 3` format check is vacuous
here because the embedding types `texts` as triples); otherwise the vectors
are appended to the index, the metadata columns are extended, and the index
is saved.  No count comparison between `vectors` and `texts` is performed. -/
def VectorStore.add_vectors (s : VectorStore) (vectors : List (List ℚ))
    (texts : List Chunk) : AddOutcome :=
  if vectors.length = 0 then .loggedError s
  else
    match texts with
    | [] => .indexError s
    | _ :: _ =>
        .ok (VectorStore.save_index
          { s with
            ntotal := s.ntotal + vectors.length,
            texts := s.texts ++ texts.map (fun c => c.1),
            page_numbers := s.page_numbers ++ texts.map (fun c => c.2.1),
            pdf_names := s.pdf_names ++ texts.map (fun c => c.2.2) })

/-- The metadata stored at position `i`, with distance `dist` attached:
`(self.texts[idx], dist, self.page_numbers[idx], self.pdf_names[idx])`. -/
def VectorStore.chunkAt (s : VectorStore) (i : Nat) (dist : ℚ) : SearchResult :=
  ⟨s.texts.getD i "", dist, s.page_numbers.getD i 0, s.pdf_names.getD i ""⟩

/-- The body of the candidate loop in `VectorStore.search`: keep a raw
`(idx, distance)` pair unless `idx == -1 or idx >= len(self.texts)` or the
optional PDF filter rejects it. -/
def VectorStore.keepCandidate (s : VectorStore) (pdfName : Option String)
    (c : Int × ℚ) : Option SearchResult :=
  if c.1 = -1 ∨ (s.texts.length : Int) ≤ c.1 then none
  else
    match pdfName with
    | none => some (s.chunkAt c.1.toNat c.2)
    | some p =>
        if s.pdf_names.getD c.1.toNat "" ≠ p then none
        else some (s.chunkAt c.1.toNat c.2)

/-- The surviving candidates of one raw FAISS answer, in raw order. -/
def VectorStore.surviving (s : VectorStore) (pdfName : Option String)
    (raw : List (Int × ℚ)) : List SearchResult :=
  raw.filterMap (s.keepCandidate pdfName)

/-- The sort key of `VectorStore.search`: `sorted(results, key=lambda x: x[1])`
orders by distance (a stable ascending sort, like Lean's `mergeSort`). -/
def distLeB (a b : SearchResult) : Bool := a.distance ≤ b.distance

/-- `VectorStore.search(query_vector, k, pdf_name)` (vector_store.py lines
71-92).  `indexSearch n` models `self.index.search(query_vector, n)` for the
given query vector; the method asks it for `k*3` candidates, filters them,
sorts the survivors ascending by distance and returns the first `k`. -/
def VectorStore.search (s : VectorStore) (indexSearch : Nat → List (Int × ℚ))
    (k : Nat) (pdfName : Option String) : List SearchResult :=
  ((s.surviving pdfName (indexSearch (k * 3))).mergeSort distLeB).take k

/-- `VectorStore.reset` (vector_store.py lines 94-106): fresh index of the
same dimension, cleared metadata arrays, both artifacts removed from disk. -/
def VectorStore.reset (s : VectorStore) : VectorStore :=
  { s with
    ntotal := 0,
    texts := [],
    page_numbers := [],
    pdf_names := [],
    indexFileExists := false,
    textsFileExists := false }

/-- The parallel-array invariant of the spec:
`len(vectors) == len(texts) == len(pages) == len(documents)`. -/
def lengthInvariant (s : VectorStore) : Prop :=
  s.ntotal = s.texts.length ∧ s.texts.length = s.page_numbers.length ∧
    s.texts.length = s.pdf_names.length

instance (s : VectorStore) : Decidable (lengthInvariant s) := by
  unfold lengthInvariant; infer_instance

/-- `results[0][1]`, the distance of the first hit of a result set (only ever
read behind a non-emptiness guard in the source). -/
def firstDistance : List SearchResult → ℚ
  | [] => 0
  | r :: _ => r.distance

/-- One iteration of the `for q in query_variations` loop of
`RAGPipeline.generate_answer` (rag_pipeline.py lines 54-58):
`if results and (not best_results or results[0][1] < best_results[0][1]):
best_results = results`. -/
def bestStep (best results : List SearchResult) : List SearchResult :=
  if results ≠ [] ∧ (best = [] ∨ firstDistance results < firstDistance best)
  then results else best

/-- The whole variation loop: fold `bestStep` over the per-variation result
sets, starting from `best_results = []`. -/
def selectBestResults (resultSets : List (List SearchResult)) : List SearchResult :=
  resultSets.foldl bestStep []

/-- `RAGPipeline._get_fallback_chunks(pdf_name, k)` (rag_pipeline.py lines
98-109): zip the first `k` entries of the three metadata arrays, keep those
passing the PDF filter, attach distance `0.0`. -/
def get_fallback_chunks (s : VectorStore) (pdfName : Option String) (k : Nat) :
    List SearchResult :=
  ((s.texts.take k).zip ((s.page_numbers.take k).zip (s.pdf_names.take k))).filterMap
    (fun c =>
      if pdfName = none ∨ pdfName = some c.2.2
      then some ⟨c.1, 0, c.2.1, c.2.2⟩ else none)

/-- Whether a chunk text counts as "technical" in
`RAGPipeline._prepare_context`: its lower-cased text contains one of the four
keywords. -/
def isTechnicalText (text : String) : Bool :=
  ["formula", "equation", "theorem", "proof"].any
    (fun kw => strIn kw (lowerStr text))

/-- The per-chunk format string `f"From {name}, page {page}:\n{text}"`. -/
def formatChunk (r : SearchResult) : String :=
  "From " ++ r.pdfName ++ ", page " ++ toString r.page ++ ":\n" ++ r.text

/-- `RAGPipeline._prepare_context(results)` (rag_pipeline.py lines 111-122):
one pass over the results appends each formatted chunk to the `technical` or
the `general` bucket, then the buckets are concatenated (technical first) and
joined with blank lines. -/
def prepare_context (results : List SearchResult) : String :=
  let buckets := results.foldl
    (fun (acc : List String × List String) r =>
      if isTechnicalText r.text
      then (acc.1 ++ [formatChunk r], acc.2)
      else (acc.1, acc.2 ++ [formatChunk r]))
    ([], [])
  String.intercalate "\n\n" (buckets.1 ++ buckets.2)

/-- The spec's description of `prepareContext`, written independently of the
loop: the technical results in order, then the general results in order, each
formatted, joined by blank lines.  Compared with `prepare_context` in C6. -/
def prepareContextSpec (results : List SearchResult) : String :=
  String.intercalate "\n\n"
    ((results.filter (fun r => isTechnicalText r.text)).map formatChunk ++
      (results.filter (fun r => !isTechnicalText r.text)).map formatChunk)

/-- `RAGPipeline._generate_query_variations(query)` (rag_pipeline.py lines
74-96): the original query, then the reformulations of each lexical-trigger
category whose keywords hit the lower-cased query. -/
def generate_query_variations (query : String) : List String :=
  let variations := [query]
  let variations :=
    if ["what is", "define", "definition"].any
        (fun w => strIn w (lowerStr query)) then
      variations ++
        ["Explain: " ++ query, "Provide detailed explanation of: " ++ query]
    else variations
  let variations :=
    if ["formula", "equation", "calculate", "derive"].any
        (fun w => strIn w (lowerStr query)) then
      variations ++
        ["Mathematical formulation of: " ++ query,
          "Explain the derivation of: " ++ query]
    else variations
  let variations :=
    if ["compare", "difference", "similar"].any
        (fun w => strIn w (lowerStr query)) then
      variations ++ ["Key differences and similarities: " ++ query]
    else variations
  variations

/-- The filtered pass of `RAGPipeline.get_full_context`: the loop
`for i in range(len(self.vector_store.texts))` keeping positions whose
`pdf_names[i]` passes the filter. -/
def fullContextFiltered (s : VectorStore) (pdfName : Option String) :
    List SearchResult :=
  (List.range s.texts.length).filterMap (fun i =>
    if pdfName = none ∨ pdfName = some (s.pdf_names.getD i "")
    then some (s.chunkAt i 0) else none)

/-- Every chunk of the store zipped back together with distance `0.0`, the
unfiltered fallback list built inside `get_full_context`. -/
def allChunksOf (s : VectorStore) : List SearchResult :=
  (s.texts.zip (s.page_numbers.zip s.pdf_names)).map
    (fun c => ⟨c.1, 0, c.2.1, c.2.2⟩)

/-- `RAGPipeline.get_full_context(pdf_name, max_chars)` (rag_pipeline.py
lines 148-179): collect the chunks passing the filter; if none, fall back to
every chunk unfiltered; join texts with single newlines; when the joined
context exceeds `max_chars`, truncate it to `max_chars` characters and the
page list to `max_chars // 1000` entries.  Returns
`(context, page_numbers, all_chunks)`. -/
def get_full_context (s : VectorStore) (pdfName : Option String)
    (maxChars : Nat) : String × List Int × List SearchResult :=
  let all_chunks := fullContextFiltered s pdfName
  let all_chunks := if all_chunks.isEmpty then allChunksOf s else all_chunks
  let context := String.intercalate "\n" (all_chunks.map (fun r => r.text))
  let page_numbers := all_chunks.map (fun r => r.page)
  if maxChars < context.length then
    (context.take maxChars, page_numbers.take (maxChars / 1000), all_chunks)
  else
    (context, page_numbers, all_chunks)

example : lowerStr "AbC dEf" = "abc def" := by decide
example : strIn "what is" (lowerStr "What is X?") = true := by decide
example : strIn "definition" "definitions" = true := by decide
example : strIn "xy" "x y" = false := by decide

/-- One `add_vectors` call of a call sequence; whether the call completed,
early-returned or raised, this is the store state it leaves behind. -/
def applyAdd (s : VectorStore) (op : List (List ℚ) × List Chunk) : VectorStore :=
  (s.add_vectors op.1 op.2).state

/-- A sequence of `add_vectors` calls applied in order. -/
def applyAdds (s : VectorStore) (ops : List (List (List ℚ) × List Chunk)) :
    VectorStore :=
  ops.foldl applyAdd s

/-- A two-chunk store over documents `A.pdf` and `B.pdf`, used as concrete
input below. -/
def storeAB : VectorStore :=
  { dimension := 384, ntotal := 2, texts := ["alpha", "beta"],
    page_numbers := [1, 2], pdf_names := ["A.pdf", "B.pdf"],
    indexFileExists := true, textsFileExists := true }

/-- C9: `reset()` leaves all four collections at length 0 and neither
persisted artifact on disk, and a second `reset()` immediately afterwards
yields the very same empty state (idempotence); `reset` is total, so the
second call cannot fail. -/
theorem C9_reset_idempotent (s : VectorStore) :
    s.reset.ntotal = 0 ∧ s.reset.texts.length = 0 ∧
    s.reset.page_numbers.length = 0 ∧ s.reset.pdf_names.length = 0 ∧
    s.reset.indexFileExists = false ∧ s.reset.textsFileExists = false ∧
    s.reset.reset = s.reset := by
  simp [VectorStore.reset]

/-- C10: calling `add_vectors` with a non-empty vector batch and an empty
metadata list raises `IndexError` from the unguarded `texts[0]` access, and
since the format check precedes all mutation the store is left unchanged. -/
theorem C10_add_raises_on_empty_chunks (s : VectorStore)
    (vectors : List (List ℚ)) (h : vectors ≠ []) :
    s.add_vectors vectors [] = .indexError s ∧
    (s.add_vectors vectors []).state = s := by
  have hl : ¬ vectors.length = 0 := by
    simpa [List.length_eq_zero] using h
  exact ⟨by simp [VectorStore.add_vectors, hl],
    by simp [VectorStore.add_vectors, hl, AddOutcome.state]⟩

theorem C10_witness :
    emptyStore.add_vectors [[1]] [] = .indexError emptyStore ∧
    (emptyStore.add_vectors [[1]] []).state = emptyStore :=
  C10_add_raises_on_empty_chunks emptyStore [[1]] (by decide)

/-- C2 fails on the code: two vectors with one metadata triple (mismatched
counts) produce neither a `ValidationError` nor any other failure — the call
completes normally and mutates the store, leaving `ntotal = 2` against one
metadata row. -/
theorem C2_counterexample :
    ([[(1 : ℚ)], [2]] : List (List ℚ)).length ≠
      ([("t", 1, "d")] : List Chunk).length ∧
    emptyStore.add_vectors [[1], [2]] [("t", 1, "d")] =
      .ok { emptyStore with
            ntotal := 2, texts := ["t"], page_numbers := [1],
            pdf_names := ["d"], indexFileExists := true,
            textsFileExists := true } ∧
    (emptyStore.add_vectors [[1], [2]] [("t", 1, "d")]).state ≠ emptyStore := by
  refine ⟨by decide, rfl, by decide⟩

/-- C2 (amended): `add_vectors` performs no count comparison at all.  An
empty vector batch exits early with a logged error and no mutation; a
non-empty batch with an empty metadata list raises `IndexError` with no
mutation; and a non-empty batch with a non-empty metadata list always
completes, growing the index by `vectors.count` and each metadata array by
`chunks.count` — equal or not. -/
theorem C2_add_no_count_validation (s : VectorStore)
    (vectors : List (List ℚ)) (texts : List Chunk) :
    (vectors = [] →
      s.add_vectors vectors texts = .loggedError s) ∧
    (vectors ≠ [] → texts = [] →
      s.add_vectors vectors texts = .indexError s) ∧
    (vectors ≠ [] → texts ≠ [] →
      ∃ s2, s.add_vectors vectors texts = .ok s2 ∧
        s2.ntotal = s.ntotal + vectors.length ∧
        s2.texts.length = s.texts.length + texts.length ∧
        s2.page_numbers.length = s.page_numbers.length + texts.length ∧
        s2.pdf_names.length = s.pdf_names.length + texts.length) := by
  refine ⟨?_, ?_, ?_⟩
  · intro h; subst h; simp [VectorStore.add_vectors]
  · intro h1 h2
    have hl : ¬ vectors.length = 0 := by
      simpa [List.length_eq_zero] using h1
    subst h2
    simp [VectorStore.add_vectors, hl]
  · intro h1 h2
    have hl : ¬ vectors.length = 0 := by
      simpa [List.length_eq_zero] using h1
    match texts, h2 with
    | t :: ts, _ =>
        refine ⟨VectorStore.save_index
          { s with
            ntotal := s.ntotal + vectors.length,
            texts := s.texts ++ ((t :: ts).map (fun c => c.1)),
            page_numbers := s.page_numbers ++ ((t :: ts).map (fun c => c.2.1)),
            pdf_names := s.pdf_names ++ ((t :: ts).map (fun c => c.2.2)) },
          ?_, ?_, ?_, ?_, ?_⟩
        · simp [VectorStore.add_vectors, hl]
        all_goals simp [VectorStore.save_index]

/-- A single `add_vectors` call with matching counts preserves the
parallel-array length invariant. -/
theorem applyAdd_preserves_invariant (s : VectorStore)
    (op : List (List ℚ) × List Chunk) (hs : lengthInvariant s)
    (hop : op.1.length = op.2.length) : lengthInvariant (applyAdd s op) := by
  obtain ⟨h1, h2, h3⟩ := hs
  unfold applyAdd VectorStore.add_vectors
  by_cases hv : op.1.length = 0
  · simpa [hv, AddOutcome.state, lengthInvariant] using ⟨h1, h2, h3⟩
  · match hm : op.2 with
    | [] =>
        simpa [hv, AddOutcome.state, lengthInvariant] using ⟨h1, h2, h3⟩
    | t :: ts =>
        simp only [hv, if_false, AddOutcome.state, VectorStore.save_index]
        refine ⟨?_, ?_, ?_⟩ <;>
          simp [lengthInvariant, h1, h2, h3, hop, hm]
        omega

/-- C3 fails on the code: one mismatched `add_vectors` call (two vectors, one
metadata triple) leaves the store with `ntotal = 2` but metadata arrays of
length 1, violating the parallel-array invariant. -/
theorem C3_counterexample :
    ¬ lengthInvariant (applyAdds emptyStore [([[1], [2]], [("t", 1, "d")])]) := by
  decide

/-- C3 (amended): starting from any store satisfying the invariant, after any
sequence of `add_vectors` calls in each of which the vector count equals the
chunk count, the invariant `len(vectors) == len(texts) == len(pages) ==
len(documents)` still holds. -/
theorem C3_invariant_under_matched_adds (s : VectorStore)
    (ops : List (List (List ℚ) × List Chunk)) (hs : lengthInvariant s)
    (hops : ∀ op ∈ ops, op.1.length = op.2.length) :
    lengthInvariant (applyAdds s ops) := by
  induction ops generalizing s with
  | nil => exact hs
  | cons op ops ih =>
      exact ih (applyAdd s op)
        (applyAdd_preserves_invariant s op hs (hops op (by simp)))
        (fun o ho => hops o (List.mem_cons_of_mem _ ho))

theorem C3_invariant_witness :
    lengthInvariant (applyAdds emptyStore [([[1]], [("t", 1, "d")])]) :=
  C3_invariant_under_matched_adds emptyStore [([[1]], [("t", 1, "d")])]
    (by decide) (by decide)

/-- One loop step yields either the running best or the new result set —
never a merge of the two. -/
theorem bestStep_cases (best results : List SearchResult) :
    bestStep best results = best ∨ bestStep best results = results := by
  unfold bestStep; split
  · exact Or.inr rfl
  · exact Or.inl rfl

/-- Once the running best is non-empty it stays non-empty and its top-1
distance never increases along the loop. -/
theorem bestFold_mono (sets : List (List SearchResult))
    (acc : List SearchResult) (h : acc ≠ []) :
    sets.foldl bestStep acc ≠ [] ∧
    firstDistance (sets.foldl bestStep acc) ≤ firstDistance acc := by
  induction sets generalizing acc with
  | nil => exact ⟨h, le_refl _⟩
  | cons r rs ih =>
      simp only [List.foldl_cons]
      by_cases hc : r ≠ [] ∧ (acc = [] ∨ firstDistance r < firstDistance acc)
      · have hs : bestStep acc r = r := by unfold bestStep; rw [if_pos hc]
        rw [hs]
        rcases hc.2 with hd | hd
        · exact absurd hd h
        · obtain ⟨hne, hle⟩ := ih r hc.1
          exact ⟨hne, le_trans hle (le_of_lt hd)⟩
      · have hs : bestStep acc r = acc := by unfold bestStep; rw [if_neg hc]
        rw [hs]
        exact ih acc h

/-- The winner of the loop is the initial best or one of the evaluated
result sets, verbatim. -/
theorem bestFold_mem (sets : List (List SearchResult))
    (acc : List SearchResult) :
    sets.foldl bestStep acc = acc ∨ sets.foldl bestStep acc ∈ sets := by
  induction sets generalizing acc with
  | nil => simp
  | cons r rs ih =>
      simp only [List.foldl_cons]
      rcases bestStep_cases acc r with h | h <;> rw [h]
      · rcases ih acc with h2 | h2
        · exact Or.inl h2
        · exact Or.inr (List.mem_cons_of_mem _ h2)
      · rcases ih r with h2 | h2
        · exact Or.inr (by rw [h2]; exact List.mem_cons_self _ _)
        · exact Or.inr (List.mem_cons_of_mem _ h2)

/-- As soon as some evaluated set is non-empty, the winner is non-empty and
its top-1 distance is at most that set's top-1 distance. -/
theorem bestFold_le_members (sets : List (List SearchResult)) :
    ∀ acc, ∀ rs ∈ sets, rs ≠ [] →
      sets.foldl bestStep acc ≠ [] ∧
      firstDistance (sets.foldl bestStep acc) ≤ firstDistance rs := by
  induction sets with
  | nil => intro acc rs h; cases h
  | cons r rest ih =>
      intro acc rs hmem hne
      simp only [List.foldl_cons]
      rcases List.mem_cons.mp hmem with rfl | hmem2
      · have hstep : bestStep acc rs ≠ [] ∧
            firstDistance (bestStep acc rs) ≤ firstDistance rs := by
          unfold bestStep
          by_cases hc : rs ≠ [] ∧ (acc = [] ∨ firstDistance rs < firstDistance acc)
          · rw [if_pos hc]; exact ⟨hne, le_refl _⟩
          · rw [if_neg hc]
            push_neg at hc
            obtain ⟨hacc, hge⟩ := hc hne
            exact ⟨hacc, hge⟩
        obtain ⟨h1, h2⟩ := hstep
        obtain ⟨h3, h4⟩ := bestFold_mono rest (bestStep acc rs) h1
        exact ⟨h3, le_trans h4 h2⟩
      · exact ih (bestStep acc r) rs hmem2 hne

/-- C4: within one `generate_answer` invocation the per-variation result sets
are folded with exactly the rule "replace the best iff the new set is
non-empty and (the best is empty or the new top-1 distance is strictly
lower)"; consequently the winner is one of the evaluated sets verbatim (never
a merge), and its top-1 distance is a minimum over the non-empty sets. -/
theorem C4_best_set_selection (resultSets : List (List SearchResult)) :
    (∀ best results, bestStep best results =
      if results ≠ [] ∧ (best = [] ∨ firstDistance results < firstDistance best)
      then results else best) ∧
    (selectBestResults resultSets = [] ∨
      selectBestResults resultSets ∈ resultSets) ∧
    (∀ rs ∈ resultSets, rs ≠ [] →
      selectBestResults resultSets ≠ [] ∧
      firstDistance (selectBestResults resultSets) ≤ firstDistance rs) := by
  exact ⟨fun best results => rfl, bestFold_mem resultSets [],
    bestFold_le_members resultSets []⟩

/-- Taking `k` of two lists and zipping equals zipping and then taking `k`. -/
theorem take_zip_take {α β : Type} (k : Nat) :
    ∀ (l1 : List α) (l2 : List β),
      (l1.take k).zip (l2.take k) = (l1.zip l2).take k := by
  induction k with
  | zero => intro l1 l2; simp
  | succ n ih =>
      intro l1 l2
      cases l1 with
      | nil => simp
      | cons a as =>
          cases l2 with
          | nil => simp
          | cons b bs => simp [ih]

/-- C5 fails on the code: with `k = 1` on a two-chunk store whose only
`B.pdf` chunk sits at position 1, the fallback is empty even though the index
contains a chunk matching the filter — `_get_fallback_chunks` truncates to the
first `k` chunks before filtering. -/
theorem C5_counterexample :
    get_fallback_chunks storeAB (some "B.pdf") 1 = [] ∧
    "B.pdf" ∈ storeAB.pdf_names ∧ lengthInvariant storeAB := by
  refine ⟨by decide, by decide, by decide⟩

/-- C5 (amended): the fallback takes the first `k` chunks by insertion order
and only then filters them, so it returns at most `k` chunks, each with
distance `0.0` and matching the filter when one is supplied; without a filter
it is exactly the first `k` chunks of the store; and it is non-empty exactly
when some position `i < k` within all three metadata arrays passes the
filter — a matching chunk beyond position `k` does not help. -/
theorem C5_fallback_first_k (s : VectorStore) (pdfName : Option String)
    (k : Nat) :
    (get_fallback_chunks s pdfName k).length ≤ k ∧
    (∀ r ∈ get_fallback_chunks s pdfName k,
      r.distance = 0 ∧ ∀ p, pdfName = some p → r.pdfName = p) ∧
    get_fallback_chunks s none k = (allChunksOf s).take k ∧
    (∀ i, i < k → i < s.texts.length → i < s.page_numbers.length →
      i < s.pdf_names.length →
      (pdfName = none ∨ pdfName = some (s.pdf_names.getD i "")) →
      get_fallback_chunks s pdfName k ≠ []) := by
  refine ⟨?_, ?_, ?_, ?_⟩
  · unfold get_fallback_chunks
    refine le_trans (List.length_filterMap_le _ _) ?_
    simp only [List.length_zip, List.length_take]
    omega
  · intro r hr
    unfold get_fallback_chunks at hr
    obtain ⟨c, _, he⟩ := List.mem_filterMap.mp hr
    by_cases h : pdfName = none ∨ pdfName = some c.2.2
    · rw [if_pos h] at he
      obtain rfl := Option.some_injective _ he
      refine ⟨rfl, fun p hp => ?_⟩
      subst hp
      rcases h with h | h
      · cases h
      · exact (Option.some_injective _ h.symm)
    · rw [if_neg h] at he
      cases he
  · unfold get_fallback_chunks allChunksOf
    have hfun : (fun (c : String × Int × String) =>
        if (none : Option String) = none ∨ (none : Option String) = some c.2.2
        then some (⟨c.1, 0, c.2.1, c.2.2⟩ : SearchResult) else none) =
        (some ∘ fun c => (⟨c.1, 0, c.2.1, c.2.2⟩ : SearchResult)) := by
      funext c; simp
    rw [take_zip_take, take_zip_take, hfun, List.filterMap_eq_map, List.map_take]
  · intro i hik hit hip hin hmatch
    apply List.ne_nil_of_mem (a :=
      (⟨s.texts.getD i "", 0, s.page_numbers.getD i 0,
        s.pdf_names.getD i ""⟩ : SearchResult))
    unfold get_fallback_chunks
    have hzlen : i < (((s.texts.take k).zip
        ((s.page_numbers.take k).zip (s.pdf_names.take k)))).length := by
      simp only [List.length_zip, List.length_take]
      omega
    refine List.mem_filterMap.mpr
      ⟨((s.texts.take k).zip
          ((s.page_numbers.take k).zip (s.pdf_names.take k)))[i], List.getElem_mem hzlen, ?_⟩
    have h1 : i < (s.texts.take k).length := by
      simp [List.length_take]; omega
    have h2 : i < (s.page_numbers.take k).length := by
      simp [List.length_take]; omega
    have h3 : i < (s.pdf_names.take k).length := by
      simp [List.length_take]; omega
    have hget : (((s.texts.take k).zip
        ((s.page_numbers.take k).zip (s.pdf_names.take k)))[i])
        = (s.texts[i], s.page_numbers[i], s.pdf_names[i]) := by
      simp [List.getElem_zip, List.getElem_take]
    rw [hget]
    have ht : s.texts.getD i "" = s.texts[i] := List.getD_eq_getElem _ _ hit
    have hp : s.page_numbers.getD i 0 = s.page_numbers[i] :=
      List.getD_eq_getElem _ _ hip
    have hn : s.pdf_names.getD i "" = s.pdf_names[i] :=
      List.getD_eq_getElem _ _ hin
    have hcond : pdfName = none ∨ pdfName = some s.pdf_names[i] := by
      rw [← hn]; exact hmatch
    rw [if_pos hcond, ht, hp, hn]

/-- The bucket-building fold of `_prepare_context`, characterised: it appends
the formatted technical results (in order) to the first bucket and the
formatted general results (in order) to the second. -/
theorem prepareBuckets_eq (results : List SearchResult) (a b : List String) :
    results.foldl
      (fun (acc : List String × List String) r =>
        if isTechnicalText r.text
        then (acc.1 ++ [formatChunk r], acc.2)
        else (acc.1, acc.2 ++ [formatChunk r])) (a, b) =
      (a ++ (results.filter (fun r => isTechnicalText r.text)).map formatChunk,
        b ++ (results.filter (fun r => !isTechnicalText r.text)).map formatChunk) := by
  induction results generalizing a b with
  | nil => simp
  | cons r rs ih =>
      by_cases h : isTechnicalText r.text <;>
        simp [h, ih, List.append_assoc]

/-- C6: `_prepare_context` produces exactly what the spec describes — the
technical results (text containing, case-insensitively, "formula",
"equation", "theorem" or "proof") first, then the general results, each
bucket in input order, each chunk rendered as
`From {document}, page {page}:` + newline + text, joined by blank lines. -/
theorem C6_prepare_context_prioritizes (results : List SearchResult) :
    prepare_context results = prepareContextSpec results := by
  unfold prepare_context prepareContextSpec
  rw [prepareBuckets_eq]
  simp

example :
    prepare_context
      [⟨"intro text", 1, 1, "A.pdf"⟩, ⟨"the theorem states X", 2, 2, "A.pdf"⟩] =
      "From A.pdf, page 2:\nthe theorem states X\n\nFrom A.pdf, page 1:\nintro text" := by
  decide

/-- `_generate_query_variations`, characterised: the original query followed
by the reformulations of each trigger category that fires, in the fixed
category order — the categories are independent and additive. -/
theorem gqv_characterization (query : String) :
    generate_query_variations query =
      [query] ++
        (if ["what is", "define", "definition"].any
            (fun w => strIn w (lowerStr query)) then
          ["Explain: " ++ query, "Provide detailed explanation of: " ++ query]
        else []) ++
        (if ["formula", "equation", "calculate", "derive"].any
            (fun w => strIn w (lowerStr query)) then
          ["Mathematical formulation of: " ++ query,
            "Explain the derivation of: " ++ query]
        else []) ++
        (if ["compare", "difference", "similar"].any
            (fun w => strIn w (lowerStr query)) then
          ["Key differences and similarities: " ++ query]
        else []) := by
  unfold generate_query_variations
  split <;> split <;> split <;> simp

/-- C8: the variation set is never empty, starts with the verbatim query, and
each lexical trigger category independently contributes its reformulations
whenever its keywords hit the lower-cased query. -/
theorem C8_query_variations (query : String) :
    generate_query_variations query ≠ [] ∧
    (generate_query_variations query).head? = some query ∧
    (["what is", "define", "definition"].any
        (fun w => strIn w (lowerStr query)) = true →
      ("Explain: " ++ query) ∈ generate_query_variations query ∧
      ("Provide detailed explanation of: " ++ query) ∈
        generate_query_variations query) ∧
    (["formula", "equation", "calculate", "derive"].any
        (fun w => strIn w (lowerStr query)) = true →
      ("Mathematical formulation of: " ++ query) ∈
        generate_query_variations query ∧
      ("Explain the derivation of: " ++ query) ∈
        generate_query_variations query) ∧
    (["compare", "difference", "similar"].any
        (fun w => strIn w (lowerStr query)) = true →
      ("Key differences and similarities: " ++ query) ∈
        generate_query_variations query) := by
  rw [gqv_characterization]
  refine ⟨by simp, by simp, ?_, ?_, ?_⟩ <;> intro h <;> simp [h]

example :
    ("Explain: What is gradient descent?" ∈
      generate_query_variations "What is gradient descent?") ∧
    ("Provide detailed explanation of: What is gradient descent?" ∈
      generate_query_variations "What is gradient descent?") := by
  decide

example :
    "Key differences and similarities: Compare CNN and RNN" ∈
      generate_query_variations "Compare CNN and RNN" := by
  decide

/-- C7: when the supplied filter matches no chunk of a non-empty store (with
index-aligned metadata arrays), `get_full_context` silently falls back to
every chunk of the store, unfiltered, in index order, each with distance
`0.0`, rather than returning an empty chunk list. -/
theorem C7_full_context_unfiltered_fallback (s : VectorStore) (p : String)
    (maxChars : Nat) (hne : s.texts ≠ [])
    (hlp : s.texts.length = s.page_numbers.length)
    (hln : s.texts.length = s.pdf_names.length)
    (hmiss : ∀ i, i < s.texts.length → s.pdf_names.getD i "" ≠ p) :
    (get_full_context s (some p) maxChars).2.2 = allChunksOf s ∧
    allChunksOf s ≠ [] ∧
    ∀ r ∈ (get_full_context s (some p) maxChars).2.2, r.distance = 0 := by
  have hfiltered : fullContextFiltered s (some p) = [] := by
    unfold fullContextFiltered
    refine List.filterMap_eq_nil_iff.mpr ?_
    intro i hi
    have hi2 : i < s.texts.length := List.mem_range.mp hi
    have : ¬(some p = none ∨ some p = some (s.pdf_names.getD i "")) := by
      rintro (h | h)
      · cases h
      · exact hmiss i hi2 (Option.some_injective _ h.symm)
    rw [if_neg this]
  have hchunks : (get_full_context s (some p) maxChars).2.2 = allChunksOf s := by
    unfold get_full_context
    rw [hfiltered]
    simp only [List.isEmpty_nil, if_true]
    split <;> rfl
  have hnonempty : allChunksOf s ≠ [] := by
    have hlen : (allChunksOf s).length = s.texts.length := by
      unfold allChunksOf
      simp [List.length_zip, ← hlp, ← hln]
    intro h
    rw [h] at hlen
    exact hne (List.length_eq_zero.mp hlen.symm)
  refine ⟨hchunks, hnonempty, ?_⟩
  intro r hr
  rw [hchunks] at hr
  unfold allChunksOf at hr
  obtain ⟨c, _, rfl⟩ := List.mem_map.mp hr
  rfl

theorem C7_witness :
    (get_full_context storeAB (some "Z.pdf") 10000).2.2 = allChunksOf storeAB ∧
    allChunksOf storeAB ≠ [] ∧
    ∀ r ∈ (get_full_context storeAB (some "Z.pdf") 10000).2.2,
      r.distance = 0 :=
  C7_full_context_unfiltered_fallback storeAB "Z.pdf" 10000 (by decide)
    (by decide) (by decide) (by decide)

/-- `keepCandidate` keeps a raw `(idx, distance)` pair exactly when `idx` is
neither the `-1` sentinel nor out of metadata bounds and the optional PDF
filter accepts it; what it keeps is the metadata at `idx` with that distance. -/
theorem keepCandidate_some (s : VectorStore) (pdfName : Option String)
    (c : Int × ℚ) (r : SearchResult)
    (h : s.keepCandidate pdfName c = some r) :
    ¬(c.1 = -1 ∨ (s.texts.length : Int) ≤ c.1) ∧
    r = s.chunkAt c.1.toNat c.2 ∧
    ∀ p, pdfName = some p → r.pdfName = p := by
  cases pdfName with
  | none =>
      simp only [VectorStore.keepCandidate] at h
      by_cases hg : c.1 = -1 ∨ (s.texts.length : Int) ≤ c.1
      · rw [if_pos hg] at h; cases h
      · rw [if_neg hg] at h
        obtain rfl := Option.some_injective _ h
        exact ⟨hg, rfl, fun p hp => by cases hp⟩
  | some p =>
      simp only [VectorStore.keepCandidate] at h
      by_cases hg : c.1 = -1 ∨ (s.texts.length : Int) ≤ c.1
      · rw [if_pos hg] at h; cases h
      · rw [if_neg hg] at h
        by_cases hf : s.pdf_names.getD c.1.toNat "" ≠ p
        · rw [if_pos hf] at h; cases h
        · rw [if_neg hf] at h
          obtain rfl := Option.some_injective _ h
          push_neg at hf
          refine ⟨hg, rfl, fun q hq => ?_⟩
          cases hq
          exact hf

/-- Everything `search` returns already survived the candidate filter. -/
theorem mem_search_mem_surviving (s : VectorStore)
    (indexSearch : Nat → List (Int × ℚ)) (k : Nat) (pdfName : Option String)
    (r : SearchResult) (hr : r ∈ s.search indexSearch k pdfName) :
    r ∈ s.surviving pdfName (indexSearch (k * 3)) := by
  unfold VectorStore.search at hr
  have h1 := (List.take_sublist k _).subset hr
  exact (List.mergeSort_perm
    (s.surviving pdfName (indexSearch (k * 3))) distLeB).subset h1

/-- C1: `search` asks the underlying index for `3k` candidates, drops those
whose position is the `-1` sentinel or out of metadata bounds, drops those a
supplied document filter rejects, sorts the survivors by non-decreasing
distance and returns at most `k` of them; every returned result matches the
filter, every returned result is the stored metadata of some raw candidate,
and when nothing survives the result is the empty list. -/
theorem C1_search_contract (s : VectorStore)
    (indexSearch : Nat → List (Int × ℚ)) (k : Nat) (pdfName : Option String) :
    s.search indexSearch k pdfName =
      ((s.surviving pdfName (indexSearch (k * 3))).mergeSort distLeB).take k ∧
    (s.search indexSearch k pdfName).length ≤ k ∧
    (s.search indexSearch k pdfName).Pairwise
      (fun a b => a.distance ≤ b.distance) ∧
    (∀ r ∈ s.search indexSearch k pdfName,
      ∃ c ∈ indexSearch (k * 3),
        ¬(c.1 = -1 ∨ (s.texts.length : Int) ≤ c.1) ∧
        r = s.chunkAt c.1.toNat c.2) ∧
    (∀ p, pdfName = some p →
      ∀ r ∈ s.search indexSearch k pdfName, r.pdfName = p) ∧
    (s.surviving pdfName (indexSearch (k * 3)) = [] →
      s.search indexSearch k pdfName = []) := by
  refine ⟨rfl, ?_, ?_, ?_, ?_, ?_⟩
  · unfold VectorStore.search
    rw [List.length_take]
    exact inf_le_left
  · unfold VectorStore.search
    have htrans : ∀ a b c : SearchResult,
        distLeB a b = true → distLeB b c = true → distLeB a c = true := by
      intro a b c hab hbc
      simp only [distLeB, decide_eq_true_eq] at *
      exact le_trans hab hbc
    have htotal : ∀ a b : SearchResult,
        (distLeB a b || distLeB b a) = true := by
      intro a b
      simp only [distLeB, Bool.or_eq_true, decide_eq_true_eq]
      exact le_total a.distance b.distance
    have hsorted := List.sorted_mergeSort htrans htotal
      (s.surviving pdfName (indexSearch (k * 3)))
    refine List.Pairwise.sublist (List.take_sublist _ _) (hsorted.imp ?_)
    intro a b hab
    simpa [distLeB] using hab
  · intro r hr
    have h2 := mem_search_mem_surviving s indexSearch k pdfName r hr
    unfold VectorStore.surviving at h2
    obtain ⟨c, hc, he⟩ := List.mem_filterMap.mp h2
    obtain ⟨hg, hre, _⟩ := keepCandidate_some s pdfName c r he
    exact ⟨c, hc, hg, hre⟩
  · intro p hp r hr
    have h2 := mem_search_mem_surviving s indexSearch k pdfName r hr
    unfold VectorStore.surviving at h2
    obtain ⟨c, _, he⟩ := List.mem_filterMap.mp h2
    exact (keepCandidate_some s pdfName c r he).2.2 p hp
  · intro h
    unfold VectorStore.search
    rw [h]
    simp
